import Mathlib

/-!
# Verification of the manual-mapper layout engine

Shallow embedding of the coordinate-mapping core of the repository
(`scripts/mapper_utils.py` and `calculate_coordinates_from_clicks` in
`scripts/complete_manual_mapper.py`), together with theorems settling the
specification claims about it.

Python integers are modelled by `Int`.  Fallible operations (Python code that
can raise `IndexError` from out-of-range list indexing, or `TypeError` from
arithmetic on `None`) are modelled with `Except MapperError`.
-/

set_option autoImplicit false

namespace Mapper

/-- Failure modes of the Python code.  The source defines no error classes of
its own; the only ways it can fail are Python built-in exceptions:
`IndexError` from out-of-range list indexing and `TypeError` from doing
arithmetic on a `None` field.  Neither carries category or shortfall data. -/
inductive MapperError
  | indexError
  | typeError
deriving DecidableEq, Repr

instance {ε α : Type} [DecidableEq ε] [DecidableEq α] :
    DecidableEq (Except ε α) := fun x y =>
  match x, y with
  | .ok a, .ok b =>
    if h : a = b then isTrue (by rw [h])
    else isFalse (by intro hc; cases hc; exact h rfl)
  | .error a, .error b =>
    if h : a = b then isTrue (by rw [h])
    else isFalse (by intro hc; cases hc; exact h rfl)
  | .ok _, .error _ => isFalse (by intro hc; cases hc)
  | .error _, .ok _ => isFalse (by intro hc; cases hc)

/-- `Coord` dataclass of `mapper_utils.py`: coordinate with optional
dimensions and identity fields (`None` is modelled by `Option`). -/
structure Coord where
  x : Int
  y : Int
  width : Option Int := none
  height : Option Int := none
  hero_order : Option Int := none
  ability_order : Option Int := none
  is_ultimate : Option Bool := none
deriving DecidableEq, Repr

instance : Inhabited Coord := ⟨{ x := 0, y := 0 }⟩

/-- The `{x, y, width, height}` dict returned by the two corner-conversion
functions (all four keys always present). -/
structure Rect where
  x : Int
  y : Int
  width : Int
  height : Int
deriving DecidableEq, Repr

/-- `Coord(**dims)`: building a `Coord` from a corner-conversion dict sets
`x`, `y`, `width`, `height` and leaves the identity fields `None`. -/
def Rect.toCoord (r : Rect) : Coord :=
  { x := r.x, y := r.y, width := some r.width, height := some r.height }

/-- The `{width, height}` params dicts (`heroes_params`,
`selected_abilities_params`). -/
structure Params where
  width : Int
  height : Int
deriving DecidableEq, Repr

/-- `calculate_from_bottom_left_top_right` (convention A). -/
def calculate_from_bottom_left_top_right (bl tr : Int × Int) : Rect :=
  { x := bl.1        -- Left edge from bottom-left
    y := tr.2        -- Top edge from top-right
    width := tr.1 - bl.1
    height := bl.2 - tr.2 }

/-- `calculate_from_top_left_bottom_right` (convention B). -/
def calculate_from_top_left_bottom_right (tl br : Int × Int) : Rect :=
  { x := tl.1        -- Left edge from top-left
    y := tl.2        -- Top edge from top-left
    width := br.1 - tl.1
    height := br.2 - tl.2 }

/-- `mirror_coordinate`.  The source computes
`screen_center = screen_width / 2` with Python float division and returns
`int(2 * screen_center - x - width)`.  Halving and doubling are exact in
binary floating point (they only move the exponent, and a half-integer is
exactly representable), so `2 * (screen_width / 2)` is exactly
`screen_width` and the whole float expression is the exact integer
`screen_width - x - width` for all inputs of float-exact magnitude
(below `2 ^ 53`, far beyond any pixel coordinate).  We model the exact value
with integer arithmetic as `2 * screen_width / 2 - x - width`, which `/`
(exact here, the dividend is even) evaluates identically. -/
def mirror_coordinate (x y width height screen_width : Int) : Int × Int :=
  (2 * screen_width / 2 - x - width, y)

/-- `calculate_hero_spacing`: vertical spacing between hero boxes. -/
def calculate_hero_spacing (hero0 hero1 : Rect) : Int := hero1.y - hero0.y

/-- `calculate_ability_spacing`: horizontal spacing between selected slots. -/
def calculate_ability_spacing (ability1 ability2 : Rect) : Int :=
  ability2.x - ability1.x

/-- `generate_heroes`: all left-side hero boxes (0-4) from the first two.
The `heroes_params` argument is accepted but unused, exactly as in the
source. -/
def generate_heroes (hero0 hero1 : Rect) (heroes_params : Params) : List Coord :=
  let spacing := calculate_hero_spacing hero0 hero1
  -- hero 0 and 1 verbatim (position plus hero_order only)
  let base : List Coord :=
    [ { x := hero0.x, y := hero0.y, hero_order := some 0 },
      { x := hero1.x, y := hero1.y, hero_order := some 1 } ]
  -- for i in range(2, 5)
  let gen : List Coord := ([2, 3, 4] : List Int).map (fun i =>
    { x := hero0.x, y := hero1.y + (i - 1) * spacing, hero_order := some i })
  base ++ gen

/-- `generate_selected_abilities`: all selected-ability slots for the given
heroes.  `heroes[0].y` raises `IndexError` on an empty list, modelled by
`Except`.  The inner loop reads `hero0_slots[slot_idx]` and recomputes
`is_ultimate=(slot_idx == 3)`, which is the flag already stored in that very
slot, so mapping over `hero0_slots` is the same loop. -/
def generate_selected_abilities (ability1 ability2 : Rect) (heroes : List Coord)
    (selected_params : Params) : Except MapperError (List Coord) :=
  let spacing := calculate_ability_spacing ability1 ability2
  -- the 4 slots of hero 0; 4th slot is ultimate
  let hero0_slots : List Coord := ([0, 1, 2, 3] : List Int).map (fun slot_idx =>
    { x := ability1.x + slot_idx * spacing, y := ability1.y,
      hero_order := some 0, is_ultimate := some (slot_idx == 3) })
  match heroes.head? with
  | none => .error .indexError
  | some h0 =>
    .ok (heroes.flatMap (fun hero =>
      let y_offset := hero.y - h0.y
      hero0_slots.map (fun s =>
        { x := s.x, y := s.y + y_offset,
          hero_order := hero.hero_order, is_ultimate := s.is_ultimate })))

/-- The single 4-slot row emitted for participant `k` with vertical offset
`yk - h0.y`, as produced by `generate_selected_abilities`. -/
def selectedRow (a1 a2 : Rect) (h0y yk : Int) (k : Int) : List Coord :=
  [ { x := a1.x + 0 * (a2.x - a1.x), y := a1.y + (yk - h0y),
      hero_order := some k, is_ultimate := some false },
    { x := a1.x + 1 * (a2.x - a1.x), y := a1.y + (yk - h0y),
      hero_order := some k, is_ultimate := some false },
    { x := a1.x + 2 * (a2.x - a1.x), y := a1.y + (yk - h0y),
      hero_order := some k, is_ultimate := some false },
    { x := a1.x + 3 * (a2.x - a1.x), y := a1.y + (yk - h0y),
      hero_order := some k, is_ultimate := some true } ]

/-- The Python loop `for i, elem in enumerate(elems): elem.hero_order = orders[i]`
shared by `apply_ultimate_hero_orders` and the model stamping in
`calculate_coordinates_from_clicks`: walks both lists in step; `orders[i]`
raises `IndexError` when `orders` runs out before `elems` does. -/
def stampOrders : List Coord → List Int → Except MapperError (List Coord)
  | [], _ => .ok []
  | _ :: _, [] => .error .indexError
  | c :: cs, o :: os => do
    let rest ← stampOrders cs os
    .ok ({ c with hero_order := some o } :: rest)

/-- Left-side participant identity table (row-major) shared by capstone
slots, standard slots and model thumbnails. -/
def left_hero_orders : List Int := [0, 1, 2, 3, 4, 10]

/-- Right-side capstone-slot identity table (row-major). -/
def right_ultimate_orders : List Int := [7, 6, 5, 11, 9, 8]

/-- Right-side standard-slot per-row identity table. -/
def right_standard_orders : List Int := [5, 6, 7, 8, 9, 11]

/-- `apply_ultimate_hero_orders`. -/
def apply_ultimate_hero_orders (ultimates : List Coord) (is_left_side : Bool) :
    Except MapperError (List Coord) :=
  let orders := if is_left_side then left_hero_orders else right_ultimate_orders
  stampOrders ultimates orders

/-- The body of the `apply_standard_hero_orders` double loop, walking the
list with its running index `idx = row_idx * 3 + col_idx` (so
`row_idx = idx / 3` and `col_idx = idx % 3`); elements at `idx ≥ 18` are
left untouched, as in the source. -/
def stampStandards (hero_orders : List Int) : Nat → List Coord → List Coord
  | _, [] => []
  | idx, c :: cs =>
    (if idx < 18 then
      { c with hero_order := some (hero_orders.getD (idx / 3) 0),
               ability_order := some ((idx % 3 + 1 : Nat) : Int) }
     else c) :: stampStandards hero_orders (idx + 1) cs

/-- `apply_standard_hero_orders`: the loop indexes `standards[idx]` for every
`idx < 18`, so a list shorter than 18 raises `IndexError` (the `hero_orders`
table itself is always long enough: `idx / 3 < 6`). -/
def apply_standard_hero_orders (standards : List Coord) (is_left_side : Bool) :
    Except MapperError (List Coord) :=
  let hero_orders := if is_left_side then left_hero_orders else right_standard_orders
  if standards.length < 18 then .error .indexError
  else .ok (stampStandards hero_orders 0 standards)

/-- What identity stamping does to capstone-slot lists of length 6 and
standard-slot lists of length 18: the left capstone identities are
`[0,1,2,3,4,10]` in order, the right capstone identities `[7,6,5,11,9,8]`;
standard row `r` takes `[0,1,2,3,4,10][r]` on the left and
`[5,6,7,8,9,11][r]` on the right, and column `c` takes `slot_order = c + 1`
on both sides. -/
def stampingSpec (us ss : List Coord) : Prop :=
  (∃ rs, apply_ultimate_hero_orders us true = .ok rs ∧
     ∀ i c, i < 6 → us.get? i = some c →
       rs.get? i = some { c with hero_order := some (left_hero_orders.getD i 0) }) ∧
  (∃ rs, apply_ultimate_hero_orders us false = .ok rs ∧
     ∀ i c, i < 6 → us.get? i = some c →
       rs.get? i = some { c with hero_order := some (right_ultimate_orders.getD i 0) }) ∧
  (∃ ts, apply_standard_hero_orders ss true = .ok ts ∧
     ∀ row col c, row < 6 → col < 3 → ss.get? (row * 3 + col) = some c →
       ts.get? (row * 3 + col) =
         some { c with hero_order := some (left_hero_orders.getD row 0),
                       ability_order := some ((col + 1 : Nat) : Int) }) ∧
  (∃ ts, apply_standard_hero_orders ss false = .ok ts ∧
     ∀ row col c, row < 6 → col < 3 → ss.get? (row * 3 + col) = some c →
       ts.get? (row * 3 + col) =
         some { c with hero_order := some (right_standard_orders.getD row 0),
                       ability_order := some ((col + 1 : Nat) : Int) })

/-- The `element_type` strings accepted by `mirror_elements_to_right`. -/
inductive ElementType
  | heroes
  | models
  | selected_abilities
  | ultimates
  | standards
deriving DecidableEq, Repr

/-- The `hero_order_offset` dict (`.get(element_type, 0)`; every key of the
dict is a constructor of `ElementType`, so the `0` default never fires). -/
def hero_order_offset : ElementType → Int
  | .heroes => 5
  | .models => 5
  | .selected_abilities => 5
  | .ultimates => 0
  | .standards => 0

/-- The membership test `element_type in ['heroes', 'models',
'selected_abilities']`. -/
def offsetCategory (t : ElementType) : Bool :=
  t = .heroes ∨ t = .models ∨ t = .selected_abilities

/-- The body of the `mirror_elements_to_right` loop for one element.  When
`has_dimensions` is true the element's own `width`/`height` are used
(arithmetic on a missing one would be a Python `TypeError`), otherwise the
category params are used and the mirrored element stores no dimensions. -/
def mirror_one (screen_width : Int) (element_type : ElementType)
    (has_dimensions : Bool) (element_width element_height : Int)
    (elem : Coord) : Except MapperError Coord := do
  let width ← if has_dimensions then
      (match elem.width with | some w => .ok w | none => .error MapperError.typeError)
    else .ok element_width
  let height ← if has_dimensions then
      (match elem.height with | some h => .ok h | none => .error MapperError.typeError)
    else .ok element_height
  let m := mirror_coordinate elem.x elem.y width height screen_width
  let new_hero_order : Option Int :=
    match elem.hero_order with
    | none => none
    | some ho =>
      if ho = 10 then some 11            -- Bonus hero 10 → 11
      else if offsetCategory element_type then
        some (ho + hero_order_offset element_type)
      else some ho                        -- Keep as-is for ultimates/standards
  .ok { x := m.1, y := m.2,
        width := if has_dimensions then some width else none,
        height := if has_dimensions then some height else none,
        hero_order := new_hero_order,
        ability_order := elem.ability_order,
        is_ultimate := elem.is_ultimate }

/-- Element-by-element traversal of a fallible map over a list (the loop in
`mirror_elements_to_right`): the first raised exception aborts the run. -/
def mapExcept (f : Coord → Except MapperError Coord) :
    List Coord → Except MapperError (List Coord)
  | [] => .ok []
  | a :: as => do
    let b ← f a
    let bs ← mapExcept f as
    .ok (b :: bs)

/-- `mirror_elements_to_right`. -/
def mirror_elements_to_right (left_elements : List Coord) (screen_width : Int)
    (element_type : ElementType) (has_dimensions : Bool)
    (element_width element_height : Int) : Except MapperError (List Coord) :=
  mapExcept
    (mirror_one screen_width element_type has_dimensions element_width element_height)
    left_elements

/-- Concrete two-element left-side input for evaluating the mirror
identity-offset property (one bonus identity 10, one ordinary identity). -/
def offsetElems : List Coord :=
  [ { x := 0, y := 0, hero_order := some 10, ability_order := some 2,
      is_ultimate := some true },
    { x := 5, y := 7, hero_order := some 3 } ]

/-- Value of `mirror_elements_to_right offsetElems 100 .models false 10 5`. -/
def offsetElemsMirrored : List Coord :=
  [ { x := 90, y := 0, hero_order := some 11, ability_order := some 2,
      is_ultimate := some true },
    { x := 85, y := 7, hero_order := some 8 } ]

/-- The five coordinate-category keys checked by `validate_coordinates`. -/
inductive Category
  | ultimate_slots_coords
  | standard_slots_coords
  | models_coords
  | heroes_coords
  | selected_abilities_coords
deriving DecidableEq, Repr

/-- A `validation['errors']` entry, with the data the formatted string
carries (category, index, and for bounds errors the displayed
`hero_order`).  The params-branch negative-coordinates message omits the
coordinates, hence the separate constructor. -/
inductive VErr
  | negativeCoords (category : Category) (index : Nat) (x y : Int)
  | negativeCoordsParams (category : Category) (index : Nat)
  | beyondWidth (category : Category) (index : Nat) (hero_order : Option Int)
  | beyondHeight (category : Category) (index : Nat) (hero_order : Option Int)
  | missingCategory (category : Category)
  | countMismatch (category : Category) (expected : Nat) (actual : Nat)
deriving DecidableEq, Repr

/-- A `validation['warnings']` entry (only produced by the count check when
the expected count is a list). -/
inductive VWarn
  | countRange (category : Category) (expected : List Nat) (actual : Nat)
deriving DecidableEq, Repr

/-- The validation report: `{'passed': ..., 'errors': ..., 'warnings': ...}`. -/
structure Validation where
  passed : Bool
  errors : List VErr
  warnings : List VWarn
deriving DecidableEq, Repr

/-- `validation['errors'].append(e); validation['passed'] = False`. -/
def addError (v : Validation) (e : VErr) : Validation :=
  { passed := false, errors := v.errors ++ [e], warnings := v.warnings }

/-- `validation['warnings'].append(w)` (does not touch `passed`). -/
def addWarning (v : Validation) (w : VWarn) : Validation :=
  { v with warnings := v.warnings ++ [w] }

/-- Loop body of the boundary check for categories that store their own
dimensions (`item.get('width', 0)` defaults a missing dimension to 0). -/
def checkItemDims (category : Category) (width height : Int)
    (v : Validation) (p : Nat × Coord) : Validation :=
  let i := p.1
  let item := p.2
  let item_width := item.width.getD 0
  let item_height := item.height.getD 0
  let v :=
    if item.x < 0 ∨ item.y < 0 then
      addError v (.negativeCoords category i item.x item.y)
    else v
  let v :=
    if item.x + item_width > width then
      addError v (.beyondWidth category i item.hero_order)
    else v
  if item.y + item_height > height then
    addError v (.beyondHeight category i item.hero_order)
  else v

/-- Loop body of the boundary check for categories whose size comes from the
shared params record. -/
def checkItemParams (category : Category) (params : Params) (width height : Int)
    (v : Validation) (p : Nat × Coord) : Validation :=
  let i := p.1
  let item := p.2
  let v :=
    if item.x < 0 ∨ item.y < 0 then
      addError v (.negativeCoordsParams category i)
    else v
  let v :=
    if item.x + params.width > width then
      addError v (.beyondWidth category i item.hero_order)
    else v
  if item.y + params.height > height then
    addError v (.beyondHeight category i item.hero_order)
  else v

/-- The `expected_counts` dict of `validate_coordinates`, in insertion
order.  Every value is a plain integer (`Sum.inl`); a `Sum.inr` value would
be the `isinstance(expected, list)` case. -/
def expected_counts : List (Category × (Nat ⊕ List Nat)) :=
  [ (.ultimate_slots_coords, .inl 12),
    (.standard_slots_coords, .inl 36),
    (.heroes_coords, .inl 10),
    (.selected_abilities_coords, .inl 40),
    (.models_coords, .inl 12) ]

/-- The coordinates dictionary handed to `validate_coordinates`: any key may
be absent. -/
structure CoordsDict where
  ultimate_slots_coords : Option (List Coord) := none
  standard_slots_coords : Option (List Coord) := none
  models_coords : Option (List Coord) := none
  heroes_coords : Option (List Coord) := none
  selected_abilities_coords : Option (List Coord) := none
  heroes_params : Option Params := none
  selected_abilities_params : Option Params := none
deriving DecidableEq, Repr

/-- `coords[category]` for the five category keys. -/
def CoordsDict.lookup (d : CoordsDict) : Category → Option (List Coord)
  | .ultimate_slots_coords => d.ultimate_slots_coords
  | .standard_slots_coords => d.standard_slots_coords
  | .models_coords => d.models_coords
  | .heroes_coords => d.heroes_coords
  | .selected_abilities_coords => d.selected_abilities_coords

/-- Loop body of the count check. -/
def countStep (coords : CoordsDict) (v : Validation)
    (p : Category × (Nat ⊕ List Nat)) : Validation :=
  match coords.lookup p.1 with
  | none => addError v (.missingCategory p.1)
  | some items =>
    let actual := items.length
    match p.2 with
    | .inr l =>
      if actual ∉ l then addWarning v (.countRange p.1 l actual) else v
    | .inl n =>
      if actual ≠ n then addError v (.countMismatch p.1 n actual) else v

/-- One iteration of the `categories_with_dims` loop: `continue` when the
category key is absent, otherwise run the boundary check over the items
(with their indices, as `enumerate` does). -/
def dimsPass (category : Category) (width height : Int)
    (o : Option (List Coord)) (v : Validation) : Validation :=
  match o with
  | none => v
  | some items => items.enum.foldl (checkItemDims category width height) v

/-- One iteration of the `categories_with_params` loop: `continue` when the
category key or its params key is absent. -/
def paramsPass (category : Category) (width height : Int)
    (o : Option (List Coord)) (op : Option Params) (v : Validation) : Validation :=
  match o, op with
  | some items, some params =>
    items.enum.foldl (checkItemParams category params width height) v
  | _, _ => v

/-- `validate_coordinates`: boundary checks for the three
dimension-carrying categories, boundary checks for the two params-driven
categories, then the count check, accumulating into one report. -/
def validate_coordinates (coords : CoordsDict) (width height : Int) :
    Validation :=
  let validation : Validation := { passed := true, errors := [], warnings := [] }
  let validation :=
    dimsPass .ultimate_slots_coords width height coords.ultimate_slots_coords validation
  let validation :=
    dimsPass .standard_slots_coords width height coords.standard_slots_coords validation
  let validation :=
    dimsPass .models_coords width height coords.models_coords validation
  let validation :=
    paramsPass .heroes_coords width height
      coords.heroes_coords coords.heroes_params validation
  let validation :=
    paramsPass .selected_abilities_coords width height
      coords.selected_abilities_coords coords.selected_abilities_params validation
  expected_counts.foldl (countStep coords) validation

/-- `points[idx]`: Python list indexing, raising `IndexError` out of range. -/
def listGetE (points : List (Int × Int)) (idx : Nat) :
    Except MapperError (Int × Int) :=
  match points.get? idx with
  | some p => .ok p
  | none => .error .indexError

/-- One corner pair read at `idx`, `idx + 1` and resolved by `conv`
(the body of every parsing loop of `calculate_coordinates_from_clicks`). -/
def parsePairE (conv : (Int × Int) → (Int × Int) → Rect)
    (points : List (Int × Int)) (idx : Nat) : Except MapperError Rect := do
  let p1 ← listGetE points idx
  let p2 ← listGetE points (idx + 1)
  .ok (conv p1 p2)

/-- A corner-pair parsing loop of `calculate_coordinates_from_clicks`:
`n` iterations starting at `idx`, stepping by 2, appending
`Coord(**dims)` each time. -/
def parseCornersE (conv : (Int × Int) → (Int × Int) → Rect) :
    Nat → List (Int × Int) → Nat → Except MapperError (List Coord)
  | 0, _, _ => .ok []
  | n + 1, points, idx => do
    let r ← parsePairE conv points idx
    let rest ← parseCornersE conv n points (idx + 2)
    .ok (r.toCoord :: rest)

/-- The full coordinates document assembled by
`calculate_coordinates_from_clicks` (every key is always set).  Each region
list holds `Coord` values; `to_dict` serialisation only drops the `None`
fields, which `Option` already represents, so the combined lists are kept
as `Coord`s. -/
structure Coords where
  heroes_params : Params
  selected_abilities_params : Params
  ultimate_slots_coords : List Coord
  standard_slots_coords : List Coord
  models_coords : List Coord
  heroes_coords : List Coord
  selected_abilities_coords : List Coord
deriving DecidableEq, Repr

/-- View of the assembled document as the dictionary handed to
`validate_coordinates` (all keys present). -/
def Coords.toDict (c : Coords) : CoordsDict :=
  { ultimate_slots_coords := some c.ultimate_slots_coords,
    standard_slots_coords := some c.standard_slots_coords,
    models_coords := some c.models_coords,
    heroes_coords := some c.heroes_coords,
    selected_abilities_coords := some c.selected_abilities_coords,
    heroes_params := some c.heroes_params,
    selected_abilities_params := some c.selected_abilities_params }

/-- `calculate_coordinates_from_clicks` of `complete_manual_mapper.py`:
parse the 68 clicks (ultimates 1-12 as bottom-left + top-right, standards
13-48, models 49-60, heroes 61-64 and selected abilities 65-68 as top-left
+ bottom-right), derive the shared params, generate heroes and selected
slots from the anchors, stamp identities (`model_hero_orders` is the loop
`for i, model in enumerate(left_models): model.hero_order = [0,1,2,3,4,10][i]`),
mirror every category to the right side and combine left + right. -/
def calculate_coordinates_from_clicks (points : List (Int × Int))
    (screen_width : Int) : Except MapperError Coords := do
  let left_ultimates0 ←
    parseCornersE calculate_from_bottom_left_top_right 6 points 0
  let left_standards0 ←
    parseCornersE calculate_from_top_left_bottom_right 18 points 12
  let left_models0 ←
    parseCornersE calculate_from_top_left_bottom_right 6 points 48
  let hero0_dims ← parsePairE calculate_from_top_left_bottom_right points 60
  let hero1_dims ← parsePairE calculate_from_top_left_bottom_right points 62
  let ability1_dims ← parsePairE calculate_from_top_left_bottom_right points 64
  let ability2_dims ← parsePairE calculate_from_top_left_bottom_right points 66
  let heroes_params : Params :=
    { width := hero0_dims.width, height := hero0_dims.height }
  let selected_abilities_params : Params :=
    { width := ability1_dims.width, height := ability1_dims.height }
  let left_heroes := generate_heroes hero0_dims hero1_dims heroes_params
  let left_selected ← generate_selected_abilities ability1_dims ability2_dims
    left_heroes selected_abilities_params
  let left_ultimates ← apply_ultimate_hero_orders left_ultimates0 true
  let left_standards ← apply_standard_hero_orders left_standards0 true
  let left_models ← stampOrders left_models0 left_hero_orders
  let right_ultimates0 ←
    mirror_elements_to_right left_ultimates screen_width .ultimates true 0 0
  let right_ultimates ← apply_ultimate_hero_orders right_ultimates0 false
  let right_standards0 ←
    mirror_elements_to_right left_standards screen_width .standards true 0 0
  let right_standards ← apply_standard_hero_orders right_standards0 false
  let right_models ←
    mirror_elements_to_right left_models screen_width .models true 0 0
  let right_heroes ← mirror_elements_to_right left_heroes screen_width .heroes
    false heroes_params.width heroes_params.height
  let right_selected ← mirror_elements_to_right left_selected screen_width
    .selected_abilities false selected_abilities_params.width
    selected_abilities_params.height
  .ok { heroes_params := heroes_params,
        selected_abilities_params := selected_abilities_params,
        ultimate_slots_coords := left_ultimates ++ right_ultimates,
        standard_slots_coords := left_standards ++ right_standards,
        models_coords := left_models ++ right_models,
        heroes_coords := left_heroes ++ right_heroes,
        selected_abilities_coords := left_selected ++ right_selected }

/-- A concrete 68-click input on a 5000 x 5000 screen whose first capstone
slot has its two corners supplied in reversed order (the bottom-left click
is really the top-right corner and vice versa), every other click being
well-formed and well inside the screen. -/
def reversedCornerClicks : List (Int × Int) :=
  [ (150, 100), (100, 120),                        -- ultimate slot 0, reversed
    (100, 120), (150, 100), (100, 120), (150, 100),
    (100, 120), (150, 100), (100, 120), (150, 100),
    (100, 120), (150, 100) ] ++
  (List.replicate 18 [((200 : Int), (200 : Int)), (240, 230)]).flatten ++
  (List.replicate 6 [((300 : Int), (300 : Int)), (350, 340)]).flatten ++
  [ (400, 400), (480, 440), (400, 460), (480, 500),
    (410, 410), (430, 425), (440, 410), (460, 425) ]

/-- Report well-formedness: `passed` is true exactly when no error has been
recorded, and no warning has been recorded. -/
def reportInv (v : Validation) : Prop :=
  (v.passed = true ↔ v.errors = []) ∧ v.warnings = []

/-- The count properties of an assembled document: 12 capstone slots, 36
standard slots, 12 model thumbnails, 10 participant boxes and 40 selected
slots, and the validator expecting exactly those totals. -/
def assembledCountsSpec (points : List (Int × Int)) (sw : Int) : Prop :=
  ∃ c, calculate_coordinates_from_clicks points sw = .ok c ∧
    c.ultimate_slots_coords.length = 12 ∧
    c.standard_slots_coords.length = 36 ∧
    c.models_coords.length = 12 ∧
    c.heroes_coords.length = 10 ∧
    c.selected_abilities_coords.length = 40 ∧
    expected_counts =
      [ (.ultimate_slots_coords, .inl 12),
        (.standard_slots_coords, .inl 36),
        (.heroes_coords, .inl 10),
        (.selected_abilities_coords, .inl 40),
        (.models_coords, .inl 12) ]

/-- Concrete 6-element input for evaluating the stamping spec. -/
def sixCoords : List Coord := List.replicate 6 { x := 0, y := 0 }

/-- Concrete 18-element input for evaluating the stamping spec. -/
def eighteenCoords : List Coord := List.replicate 18 { x := 0, y := 0 }

/-- The strict-inequality bounds-check behaviour, for every region, screen
extent and incoming report: a width (height) overflow error for a region is
recorded exactly when `x + width` (`y + height`) strictly exceeds the
screen extent — per-region dimensions for the `checkItemDims` branch,
shared params for the `checkItemParams` branch — and whenever a region's
`x + width` equals the screen width exactly, a single-region document built
from it receives no width-overflow error from `validate_coordinates`. -/
def strictBoundsSpec (cat : Category) (w h : Int) (v : Validation) (i : Nat)
    (item : Coord) (params : Params) : Prop :=
  ((VErr.beyondWidth cat i item.hero_order ∈
      (checkItemDims cat w h v (i, item)).errors) ↔
    (VErr.beyondWidth cat i item.hero_order ∈ v.errors ∨
      item.x + item.width.getD 0 > w)) ∧
  ((VErr.beyondHeight cat i item.hero_order ∈
      (checkItemDims cat w h v (i, item)).errors) ↔
    (VErr.beyondHeight cat i item.hero_order ∈ v.errors ∨
      item.y + item.height.getD 0 > h)) ∧
  ((VErr.beyondWidth cat i item.hero_order ∈
      (checkItemParams cat params w h v (i, item)).errors) ↔
    (VErr.beyondWidth cat i item.hero_order ∈ v.errors ∨
      item.x + params.width > w)) ∧
  ((VErr.beyondHeight cat i item.hero_order ∈
      (checkItemParams cat params w h v (i, item)).errors) ↔
    (VErr.beyondHeight cat i item.hero_order ∈ v.errors ∨
      item.y + params.height > h)) ∧
  (item.x + item.width.getD 0 = w →
    VErr.beyondWidth Category.ultimate_slots_coords 0 item.hero_order ∉
      (validate_coordinates { ultimate_slots_coords := some [item] } w h).errors)

/-- A concrete region whose right edge sits exactly on the screen edge
(`x + width = 10`). -/
def exactEdgeItem : Coord :=
  { x := 4, y := 0, width := some 6, height := some 7, hero_order := some 3 }

/-- The region produced by the reversed corner pair of
`reversedCornerClicks` (negative width and height, non-negative origin,
within a 5000 x 5000 screen). -/
def reversedRegion : Coord :=
  { x := 150, y := 120, width := some (-50), height := some (-20) }

theorem mirror_coordinate_eq (x y width height screen_width : Int) :
    mirror_coordinate x y width height screen_width =
      (screen_width - x - width, y) := by
  unfold mirror_coordinate
  have h2 : (2 : Int) * screen_width / 2 = screen_width := by omega
  rw [h2]

theorem generate_heroes_eq (h0 h1 : Rect) (p : Params) :
    generate_heroes h0 h1 p =
      [ { x := h0.x, y := h0.y, hero_order := some 0 },
        { x := h1.x, y := h1.y, hero_order := some 1 },
        { x := h0.x, y := h1.y + (2 - 1) * (h1.y - h0.y), hero_order := some 2 },
        { x := h0.x, y := h1.y + (3 - 1) * (h1.y - h0.y), hero_order := some 3 },
        { x := h0.x, y := h1.y + (4 - 1) * (h1.y - h0.y), hero_order := some 4 } ] :=
  rfl

theorem generate_selected_eq (a1 a2 h0 h1 : Rect) (hp sp : Params) :
    generate_selected_abilities a1 a2 (generate_heroes h0 h1 hp) sp =
      .ok (selectedRow a1 a2 h0.y h0.y 0 ++
           selectedRow a1 a2 h0.y h1.y 1 ++
           selectedRow a1 a2 h0.y (h1.y + (2 - 1) * (h1.y - h0.y)) 2 ++
           selectedRow a1 a2 h0.y (h1.y + (3 - 1) * (h1.y - h0.y)) 3 ++
           selectedRow a1 a2 h0.y (h1.y + (4 - 1) * (h1.y - h0.y)) 4) := by
  simp [generate_selected_abilities, generate_heroes, selectedRow,
    calculate_hero_spacing, calculate_ability_spacing, List.flatMap]

theorem stampOrders_ok_of_le :
    ∀ (cs : List Coord) (os : List Int), cs.length ≤ os.length →
      ∃ rs, stampOrders cs os = .ok rs ∧
        rs.length = cs.length ∧
        (∀ i, rs.get? i = (cs.get? i).bind (fun c =>
          (os.get? i).map (fun o => { c with hero_order := some o }))) := by
  intro cs
  induction cs with
  | nil =>
    intro os _
    exact ⟨[], rfl, rfl, fun i => by cases os.get? i <;> simp⟩
  | cons c cs ih =>
    intro os hlen
    match os with
    | [] => simp at hlen
    | o :: os =>
      obtain ⟨rs, hok, hlen2, hget⟩ := ih os (by simpa using hlen)
      refine ⟨{ c with hero_order := some o } :: rs, ?_, by simp [hlen2], ?_⟩
      · simp only [stampOrders, hok]; rfl
      · intro i
        cases i with
        | zero => simp
        | succ j => simpa using hget j

theorem stampStandards_get? (hero_orders : List Int) :
    ∀ (cs : List Coord) (idx i : Nat),
      (stampStandards hero_orders idx cs).get? i =
        (cs.get? i).map (fun c =>
          if idx + i < 18 then
            { c with hero_order := some (hero_orders.getD ((idx + i) / 3) 0),
                     ability_order := some (((idx + i) % 3 + 1 : Nat) : Int) }
          else c) := by
  intro cs
  induction cs with
  | nil => intro idx i; simp [stampStandards]
  | cons c cs ih =>
    intro idx i
    cases i with
    | zero => simp [stampStandards]
    | succ j =>
      have := ih (idx + 1) j
      simp only [stampStandards, List.get?_cons_succ]
      rw [this]
      have harith : idx + 1 + j = idx + (j + 1) := by omega
      rw [harith]

theorem stampStandards_length (hero_orders : List Int) :
    ∀ (cs : List Coord) (idx : Nat),
      (stampStandards hero_orders idx cs).length = cs.length := by
  intro cs
  induction cs with
  | nil => intro idx; rfl
  | cons c cs ih => intro idx; simp [stampStandards, ih]

@[simp] theorem ok_bind {α β : Type} (a : α) (f : α → Except MapperError β) :
    (do let x ← Except.ok a; f x) = f a := rfl

@[simp] theorem error_bind {α β : Type} (e : MapperError)
    (f : α → Except MapperError β) :
    (do let x ← (Except.error e : Except MapperError α); f x) = Except.error e := rfl

theorem mapExcept_ok_get? (f : Coord → Except MapperError Coord) :
    ∀ (as bs : List Coord), mapExcept f as = .ok bs →
      bs.length = as.length ∧
      ∀ k a, as.get? k = some a → ∃ b, bs.get? k = some b ∧ f a = .ok b := by
  intro as
  induction as with
  | nil =>
    intro bs h
    simp only [mapExcept] at h
    cases h
    exact ⟨rfl, fun k a ha => by simp at ha⟩
  | cons a as ih =>
    intro bs h
    simp only [mapExcept] at h
    cases hfa : f a with
    | error e => rw [hfa] at h; simp at h
    | ok b =>
      rw [hfa] at h
      cases hrest : mapExcept f as with
      | error e => rw [hrest] at h; simp at h
      | ok bs0 =>
        rw [hrest] at h
        simp only [ok_bind] at h
        cases h
        obtain ⟨hlen, hget⟩ := ih bs0 hrest
        refine ⟨by simp [hlen], ?_⟩
        intro k x hx
        cases k with
        | zero =>
          simp only [List.get?_cons_zero] at hx
          cases hx
          exact ⟨b, rfl, hfa⟩
        | succ j =>
          simp only [List.get?_cons_succ] at hx ⊢
          exact hget j x hx

theorem mapExcept_ok_of_forall (f : Coord → Except MapperError Coord)
    (as : List Coord) (h : ∀ a ∈ as, ∃ b, f a = .ok b) :
    ∃ bs, mapExcept f as = .ok bs := by
  induction as with
  | nil => exact ⟨[], rfl⟩
  | cons a as ih =>
    obtain ⟨b, hb⟩ := h a (List.mem_cons_self a as)
    obtain ⟨bs, hbs⟩ := ih (fun x hx => h x (List.mem_cons_of_mem a hx))
    exact ⟨b :: bs, by simp only [mapExcept, hb, hbs]; rfl⟩

theorem mirror_one_ok_fields {sw : Int} {t : ElementType} {hd : Bool}
    {ew eh : Int} {e r : Coord}
    (h : mirror_one sw t hd ew eh e = .ok r) :
    r.hero_order = (match e.hero_order with
      | none => none
      | some ho => if ho = 10 then some 11
          else if offsetCategory t then some (ho + hero_order_offset t)
          else some ho) ∧
    r.ability_order = e.ability_order ∧
    r.is_ultimate = e.is_ultimate := by
  unfold mirror_one at h
  cases hd with
  | false =>
    simp only [Bool.false_eq_true, if_neg, ite_false, ok_bind] at h
    cases h
    exact ⟨rfl, rfl, rfl⟩
  | true =>
    simp only [ite_true] at h
    cases hw : e.width with
    | none => rw [hw] at h; simp at h
    | some w =>
      rw [hw] at h
      simp only [ok_bind] at h
      cases hh : e.height with
      | none => rw [hh] at h; simp at h
      | some ht0 =>
        rw [hh] at h
        simp only [ok_bind] at h
        cases h
        exact ⟨rfl, rfl, rfl⟩

theorem addError_inv (v : Validation) (e : VErr) (h : reportInv v) :
    reportInv (addError v e) := by
  obtain ⟨_, hw⟩ := h
  exact ⟨by simp [addError], by simp [addError, hw]⟩

theorem checkItemDims_inv (category : Category) (width height : Int)
    (v : Validation) (p : Nat × Coord) (h : reportInv v) :
    reportInv (checkItemDims category width height v p) := by
  unfold checkItemDims
  dsimp only
  split
  · split
    · split
      · exact addError_inv _ _ (addError_inv _ _ (addError_inv _ _ h))
      · exact addError_inv _ _ (addError_inv _ _ h)
    · split
      · exact addError_inv _ _ (addError_inv _ _ h)
      · exact addError_inv _ _ h
  · split
    · split
      · exact addError_inv _ _ (addError_inv _ _ h)
      · exact addError_inv _ _ h
    · split
      · exact addError_inv _ _ h
      · exact h

theorem checkItemParams_inv (category : Category) (params : Params)
    (width height : Int) (v : Validation) (p : Nat × Coord) (h : reportInv v) :
    reportInv (checkItemParams category params width height v p) := by
  unfold checkItemParams
  dsimp only
  split
  · split
    · split
      · exact addError_inv _ _ (addError_inv _ _ (addError_inv _ _ h))
      · exact addError_inv _ _ (addError_inv _ _ h)
    · split
      · exact addError_inv _ _ (addError_inv _ _ h)
      · exact addError_inv _ _ h
  · split
    · split
      · exact addError_inv _ _ (addError_inv _ _ h)
      · exact addError_inv _ _ h
    · split
      · exact addError_inv _ _ h
      · exact h

theorem foldl_inv {α : Type} (f : Validation → α → Validation)
    (hf : ∀ v a, reportInv v → reportInv (f v a)) :
    ∀ (l : List α) (v : Validation), reportInv v → reportInv (l.foldl f v) := by
  intro l
  induction l with
  | nil => intro v h; exact h
  | cons a l ih => intro v h; exact ih (f v a) (hf v a h)

theorem dimsPass_inv (category : Category) (width height : Int)
    (o : Option (List Coord)) (v : Validation) (h : reportInv v) :
    reportInv (dimsPass category width height o v) := by
  cases o with
  | none => exact h
  | some items =>
    exact foldl_inv _ (checkItemDims_inv category width height) items.enum v h

theorem paramsPass_inv (category : Category) (width height : Int)
    (o : Option (List Coord)) (op : Option Params) (v : Validation)
    (h : reportInv v) :
    reportInv (paramsPass category width height o op v) := by
  cases o with
  | none => cases op <;> exact h
  | some items =>
    cases op with
    | none => exact h
    | some params =>
      exact foldl_inv _ (checkItemParams_inv category params width height)
        items.enum v h

theorem countStep_inl_inv (coords : CoordsDict) (v : Validation)
    (cat : Category) (n : Nat) (h : reportInv v) :
    reportInv (countStep coords v (cat, .inl n)) := by
  unfold countStep
  cases coords.lookup cat with
  | none => exact addError_inv _ _ h
  | some items =>
    simp only
    split
    · exact addError_inv _ _ h
    · exact h

theorem countsPass_inv (coords : CoordsDict) (v : Validation) (h : reportInv v) :
    reportInv (expected_counts.foldl (countStep coords) v) := by
  simp only [expected_counts, List.foldl_cons, List.foldl_nil]
  exact countStep_inl_inv _ _ _ _ (countStep_inl_inv _ _ _ _
    (countStep_inl_inv _ _ _ _ (countStep_inl_inv _ _ _ _
      (countStep_inl_inv _ _ _ _ h))))

theorem validate_coordinates_inv (coords : CoordsDict) (width height : Int) :
    reportInv (validate_coordinates coords width height) := by
  unfold validate_coordinates
  exact countsPass_inv _ _ (paramsPass_inv _ _ _ _ _ _ (paramsPass_inv _ _ _ _ _ _
    (dimsPass_inv _ _ _ _ _ (dimsPass_inv _ _ _ _ _ (dimsPass_inv _ _ _ _ _
      ⟨by simp, rfl⟩)))))

theorem parsePairE_ok (conv : (Int × Int) → (Int × Int) → Rect)
    (pts : List (Int × Int)) (idx : Nat) (h : idx + 2 ≤ pts.length) :
    ∃ r, parsePairE conv pts idx = .ok r := by
  cases hp1 : pts.get? idx with
  | none => rw [List.get?_eq_none] at hp1; omega
  | some p1 =>
    cases hp2 : pts.get? (idx + 1) with
    | none => rw [List.get?_eq_none] at hp2; omega
    | some p2 =>
      exact ⟨conv p1 p2,
        by simp only [parsePairE, listGetE, hp1, hp2, ok_bind]⟩

theorem parsePairE_err (conv : (Int × Int) → (Int × Int) → Rect)
    (pts : List (Int × Int)) (idx : Nat) (h : pts.length < idx + 2) :
    parsePairE conv pts idx = .error .indexError := by
  cases hp1 : pts.get? idx with
  | none => simp only [parsePairE, listGetE, hp1, error_bind]
  | some p1 =>
    cases hp2 : pts.get? (idx + 1) with
    | none => simp only [parsePairE, listGetE, hp1, hp2, ok_bind, error_bind]
    | some p2 =>
      exfalso
      have h2 : ¬ pts.length ≤ idx + 1 := by
        intro hle
        rw [List.get?_eq_none.2 hle] at hp2
        cases hp2
      omega

theorem parseCornersE_ok (conv : (Int × Int) → (Int × Int) → Rect) :
    ∀ (n : Nat) (pts : List (Int × Int)) (idx : Nat),
      idx + 2 * n ≤ pts.length →
      ∃ rs, parseCornersE conv n pts idx = .ok rs ∧ rs.length = n ∧
        ∀ c ∈ rs, c.width.isSome ∧ c.height.isSome := by
  intro n
  induction n with
  | zero => intro pts idx _; exact ⟨[], rfl, rfl, by simp⟩
  | succ m ih =>
    intro pts idx h
    obtain ⟨r, hr⟩ := parsePairE_ok conv pts idx (by omega)
    obtain ⟨rs, hrs, hlen, hdims⟩ := ih pts (idx + 2) (by omega)
    refine ⟨r.toCoord :: rs, ?_, by simp [hlen], ?_⟩
    · simp only [parseCornersE, hr, hrs, ok_bind]
    · intro c hc
      rcases List.mem_cons.1 hc with rfl | hmem
      · exact ⟨rfl, rfl⟩
      · exact hdims c hmem

theorem parseCornersE_err (conv : (Int × Int) → (Int × Int) → Rect) :
    ∀ (n : Nat) (pts : List (Int × Int)) (idx : Nat),
      pts.length < idx + 2 * n → 0 < n →
      parseCornersE conv n pts idx = .error .indexError := by
  intro n
  induction n with
  | zero => intro _ _ _ hn; omega
  | succ m ih =>
    intro pts idx h _
    by_cases hidx : idx + 2 ≤ pts.length
    · obtain ⟨r, hr⟩ := parsePairE_ok conv pts idx hidx
      have hm : 0 < m := by omega
      have herr := ih pts (idx + 2) (by omega) hm
      simp only [parseCornersE, hr, herr, ok_bind, error_bind]
    · have herr := parsePairE_err conv pts idx (by omega)
      simp only [parseCornersE, herr, error_bind]

theorem stampOrders_dims :
    ∀ (cs : List Coord) (os : List Int) (rs : List Coord),
      stampOrders cs os = .ok rs →
      (∀ c ∈ cs, c.width.isSome ∧ c.height.isSome) →
      ∀ r ∈ rs, r.width.isSome ∧ r.height.isSome := by
  intro cs
  induction cs with
  | nil =>
    intro os rs h _
    cases os <;> simp only [stampOrders] at h <;> cases h <;> simp
  | cons c cs ih =>
    intro os rs h hdims
    cases os with
    | nil => simp only [stampOrders] at h; simp at h
    | cons o os =>
      simp only [stampOrders] at h
      cases hrest : stampOrders cs os with
      | error e => rw [hrest] at h; simp at h
      | ok rs0 =>
        rw [hrest] at h
        simp only [ok_bind] at h
        cases h
        intro r hr
        rcases List.mem_cons.1 hr with rfl | hmem
        · exact hdims c (List.mem_cons_self c cs)
        · exact ih os rs0 hrest (fun x hx => hdims x (List.mem_cons_of_mem c hx)) r hmem

theorem stampStandards_dims (ho : List Int) :
    ∀ (cs : List Coord) (idx : Nat),
      (∀ c ∈ cs, c.width.isSome ∧ c.height.isSome) →
      ∀ r ∈ stampStandards ho idx cs, r.width.isSome ∧ r.height.isSome := by
  intro cs
  induction cs with
  | nil => intro idx _ r hr; simp [stampStandards] at hr
  | cons c cs ih =>
    intro idx hdims r hr
    simp only [stampStandards] at hr
    rcases List.mem_cons.1 hr with rfl | hmem
    · have hc := hdims c (List.mem_cons_self c cs)
      split <;> exact hc
    · exact ih (idx + 1) (fun x hx => hdims x (List.mem_cons_of_mem c hx)) r hmem

theorem mirror_one_ok_of_dims (sw : Int) (t : ElementType) (hd : Bool)
    (ew eh : Int) (e : Coord)
    (h : hd = true → e.width.isSome ∧ e.height.isSome) :
    ∃ b, mirror_one sw t hd ew eh e = .ok b := by
  cases hd with
  | false => exact ⟨_, rfl⟩
  | true =>
    obtain ⟨hw, hh⟩ := h rfl
    obtain ⟨w, hw⟩ := Option.isSome_iff_exists.1 hw
    obtain ⟨ht0, hh⟩ := Option.isSome_iff_exists.1 hh
    unfold mirror_one
    rw [hw, hh]
    exact ⟨_, rfl⟩

theorem mirror_ok_of_dims (elems : List Coord) (sw : Int) (t : ElementType)
    (hd : Bool) (ew eh : Int)
    (h : hd = true → ∀ c ∈ elems, c.width.isSome ∧ c.height.isSome) :
    ∃ rights, mirror_elements_to_right elems sw t hd ew eh = .ok rights ∧
      rights.length = elems.length := by
  obtain ⟨bs, hbs⟩ := mapExcept_ok_of_forall _ elems
    (fun a ha => mirror_one_ok_of_dims sw t hd ew eh a (fun hhd => h hhd a ha))
  exact ⟨bs, hbs, (mapExcept_ok_get? _ _ _ hbs).1⟩

theorem checkItemDims_bw_mem (cat : Category) (w h : Int) (v : Validation)
    (i : Nat) (item : Coord) :
    (VErr.beyondWidth cat i item.hero_order ∈
        (checkItemDims cat w h v (i, item)).errors) ↔
      (VErr.beyondWidth cat i item.hero_order ∈ v.errors ∨
        item.x + item.width.getD 0 > w) := by
  unfold checkItemDims
  dsimp only
  split <;> split <;> split <;> simp_all [addError]

theorem checkItemDims_bh_mem (cat : Category) (w h : Int) (v : Validation)
    (i : Nat) (item : Coord) :
    (VErr.beyondHeight cat i item.hero_order ∈
        (checkItemDims cat w h v (i, item)).errors) ↔
      (VErr.beyondHeight cat i item.hero_order ∈ v.errors ∨
        item.y + item.height.getD 0 > h) := by
  unfold checkItemDims
  dsimp only
  split <;> split <;> split <;> simp_all [addError]

theorem checkItemParams_bw_mem (cat : Category) (params : Params)
    (w h : Int) (v : Validation) (i : Nat) (item : Coord) :
    (VErr.beyondWidth cat i item.hero_order ∈
        (checkItemParams cat params w h v (i, item)).errors) ↔
      (VErr.beyondWidth cat i item.hero_order ∈ v.errors ∨
        item.x + params.width > w) := by
  unfold checkItemParams
  dsimp only
  split <;> split <;> split <;> simp_all [addError]

theorem checkItemParams_bh_mem (cat : Category) (params : Params)
    (w h : Int) (v : Validation) (i : Nat) (item : Coord) :
    (VErr.beyondHeight cat i item.hero_order ∈
        (checkItemParams cat params w h v (i, item)).errors) ↔
      (VErr.beyondHeight cat i item.hero_order ∈ v.errors ∨
        item.y + params.height > h) := by
  unfold checkItemParams
  dsimp only
  split <;> split <;> split <;> simp_all [addError]

theorem countStep_mem_bw (coords : CoordsDict) (v : Validation)
    (p : Category × (Nat ⊕ List Nat)) (cat : Category) (i : Nat)
    (ho : Option Int) :
    (VErr.beyondWidth cat i ho ∈ (countStep coords v p).errors) ↔
      VErr.beyondWidth cat i ho ∈ v.errors := by
  obtain ⟨pc, pe⟩ := p
  unfold countStep
  dsimp only
  cases coords.lookup pc with
  | none => simp [addError]
  | some items =>
    dsimp only
    cases pe with
    | inl n => dsimp only; split <;> simp [addError]
    | inr l => dsimp only; split <;> simp [addWarning]

end Mapper

open Mapper

/-- **C1.** For every left-side region mirrored with width `w` and screen
width `sw`, the mirrored x-coordinate equals `sw - x - w` (equivalently
`mirrored_x + w = sw - x`) and the y-coordinate is unchanged, exactly, for
all integer inputs. -/
theorem mirror_reflection_exact (x y w h sw : Int) :
    (mirror_coordinate x y w h sw).1 = sw - x - w ∧
    (mirror_coordinate x y w h sw).1 + w = sw - x ∧
    (mirror_coordinate x y w h sw).2 = y := by
  rw [mirror_coordinate_eq]
  refine ⟨rfl, by ring, rfl⟩

/-- **C7.** Convention A maps `bl`, `tr` to
`(bl.x, tr.y, tr.x - bl.x, bl.y - tr.y)`; convention B maps `tl`, `br` to
`(tl.x, tl.y, br.x - tl.x, br.y - tl.y)`; both conventions yield
`{x:100, y:180, width:50, height:20}` on the spec's concrete corners. -/
theorem corner_conversion_conventions (bl tr tl br : Int × Int) :
    calculate_from_bottom_left_top_right bl tr =
      { x := bl.1, y := tr.2, width := tr.1 - bl.1, height := bl.2 - tr.2 } ∧
    calculate_from_top_left_bottom_right tl br =
      { x := tl.1, y := tl.2, width := br.1 - tl.1, height := br.2 - tl.2 } ∧
    calculate_from_bottom_left_top_right (100, 200) (150, 180) =
      { x := 100, y := 180, width := 50, height := 20 } ∧
    calculate_from_top_left_bottom_right (100, 180) (150, 200) =
      { x := 100, y := 180, width := 50, height := 20 } := by
  refine ⟨rfl, rfl, by decide, by decide⟩

/-- **C2.** Identity stamping of the 6 capstone-slot rectangles assigns
`[0,1,2,3,4,10]` on the left and `[7,6,5,11,9,8]` on the right, in that
exact order; stamping of the 18 standard-slot rectangles (6 rows by 3
columns, row-major) assigns row `r` the identity `[0,1,2,3,4,10][r]` on the
left and `[5,6,7,8,9,11][r]` on the right, and column `c` the
`slot_order = c + 1` on both sides. -/
theorem capstone_standard_identity_stamping (us ss : List Coord)
    (hu : us.length = 6) (hs : ss.length = 18) : stampingSpec us ss := by
  have hstamp : ∀ row col : Nat, row < 6 → col < 3 →
      ∀ (ho : List Int) (c : Coord),
        (if 0 + (row * 3 + col) < 18 then
          { c with hero_order := some (ho.getD ((0 + (row * 3 + col)) / 3) 0),
                   ability_order := some (((0 + (row * 3 + col)) % 3 + 1 : Nat) : Int) }
         else c) =
        { c with hero_order := some (ho.getD row 0),
                 ability_order := some ((col + 1 : Nat) : Int) } := by
    intro row col hr hc ho c
    have h18 : 0 + (row * 3 + col) < 18 := by omega
    have hdiv : (0 + (row * 3 + col)) / 3 = row := by omega
    have hmod : (0 + (row * 3 + col)) % 3 = col := by omega
    rw [if_pos h18, hdiv, hmod]
  refine ⟨?_, ?_, ?_, ?_⟩
  · obtain ⟨rs, hok, hlen, hget⟩ :=
      stampOrders_ok_of_le us left_hero_orders (by simp [left_hero_orders, hu])
    refine ⟨rs, hok, ?_⟩
    intro i c hi hc
    rw [hget i, hc]
    interval_cases i <;> simp [left_hero_orders]
  · obtain ⟨rs, hok, hlen, hget⟩ :=
      stampOrders_ok_of_le us right_ultimate_orders (by simp [right_ultimate_orders, hu])
    refine ⟨rs, hok, ?_⟩
    intro i c hi hc
    rw [hget i, hc]
    interval_cases i <;> simp [right_ultimate_orders]
  · refine ⟨stampStandards left_hero_orders 0 ss, by simp [apply_standard_hero_orders, hs], ?_⟩
    intro row col c hr hc hss
    rw [stampStandards_get?, hss, Option.map_some', hstamp row col hr hc]
  · refine ⟨stampStandards right_standard_orders 0 ss,
      by simp [apply_standard_hero_orders, hs], ?_⟩
    intro row col c hr hc hss
    rw [stampStandards_get?, hss, Option.map_some', hstamp row col hr hc]

/-- Witness for C2: the stamping spec evaluated on concrete 6- and
18-element inputs. -/
theorem capstone_standard_identity_stamping_witness :
    sixCoords.length = 6 ∧ eighteenCoords.length = 18 ∧
      stampingSpec sixCoords eighteenCoords :=
  ⟨by decide, by decide,
    capstone_standard_identity_stamping sixCoords eighteenCoords (by decide) (by decide)⟩

/-- **C4.** Participant-box generation emits anchors 0 and 1 verbatim
(position only) and participants `k = 2..4` at `x = anchor1.x`,
`y = anchor2.y + (k-1) * spacing` with `spacing = anchor2.y - anchor1.y`
(exactly 5 left participant-boxes); selected-slot generation then emits, for
each of those 5 boxes, a 4-slot row at `x = anchor1.x + j * spacing_h`
(`spacing_h = anchor2.x - anchor1.x`, `j = 0..3`), vertically offset by that
participant's `y` minus participant 0's `y`, slot `j = 3` being the terminal
slot — 20 left selected-slots with identities 0..4 in generation order. -/
theorem anchor_generation (h0 h1 a1 a2 : Rect) (hp sp : Params) :
    generate_heroes h0 h1 hp =
      [ { x := h0.x, y := h0.y, hero_order := some 0 },
        { x := h1.x, y := h1.y, hero_order := some 1 },
        { x := h0.x, y := h1.y + (2 - 1) * (h1.y - h0.y), hero_order := some 2 },
        { x := h0.x, y := h1.y + (3 - 1) * (h1.y - h0.y), hero_order := some 3 },
        { x := h0.x, y := h1.y + (4 - 1) * (h1.y - h0.y), hero_order := some 4 } ] ∧
    generate_selected_abilities a1 a2 (generate_heroes h0 h1 hp) sp =
      .ok (selectedRow a1 a2 h0.y h0.y 0 ++
           selectedRow a1 a2 h0.y h1.y 1 ++
           selectedRow a1 a2 h0.y (h1.y + (2 - 1) * (h1.y - h0.y)) 2 ++
           selectedRow a1 a2 h0.y (h1.y + (3 - 1) * (h1.y - h0.y)) 3 ++
           selectedRow a1 a2 h0.y (h1.y + (4 - 1) * (h1.y - h0.y)) 4) :=
  ⟨generate_heroes_eq h0 h1 hp, generate_selected_eq a1 a2 h0 h1 hp sp⟩

/-- **C3.** For every region of the model-thumbnails, participant-boxes or
selected-slots categories whose left-side identity is `i`, mirroring assigns
the right-side identity `i + 5` except that `10` maps to `11` (never `15`);
`slot_order` (`ability_order`) and the terminal-slot flag (`is_ultimate`)
are copied unchanged from the mirrored source region. -/
theorem mirror_identity_offset (t : ElementType)
    (ht : t = .models ∨ t = .heroes ∨ t = .selected_abilities)
    (elems rights : List Coord) (sw : Int) (hd : Bool) (ew eh : Int)
    (hok : mirror_elements_to_right elems sw t hd ew eh = .ok rights) :
    ∀ k e r i, elems.get? k = some e → rights.get? k = some r →
      e.hero_order = some i →
      r.hero_order = some (if i = 10 then 11 else i + 5) ∧
      r.ability_order = e.ability_order ∧
      r.is_ultimate = e.is_ultimate := by
  obtain ⟨hlen, hget⟩ := mapExcept_ok_get? _ elems rights hok
  intro k e r i he hr hi
  obtain ⟨b, hb, hfb⟩ := hget k e he
  rw [hr] at hb
  cases hb
  obtain ⟨hho, hao, hiu⟩ := mirror_one_ok_fields hfb
  refine ⟨?_, hao, hiu⟩
  rw [hho, hi]
  have hcat : offsetCategory t = true := by
    rcases ht with rfl | rfl | rfl <;> rfl
  have hoff : hero_order_offset t = 5 := by
    rcases ht with rfl | rfl | rfl <;> rfl
  simp only [hcat, hoff, ite_true]
  by_cases h10 : i = 10
  · simp [h10]
  · simp [h10]

/-- Witness for C3: mirroring the concrete two-element left-side list (one
bonus identity 10, one ordinary identity 3) as model thumbnails. -/
theorem mirror_identity_offset_witness :
    (ElementType.models = ElementType.models ∨
     ElementType.models = ElementType.heroes ∨
     ElementType.models = ElementType.selected_abilities) ∧
    mirror_elements_to_right offsetElems 100 .models false 10 5 =
      .ok offsetElemsMirrored ∧
    (∀ k e r i, offsetElems.get? k = some e →
      offsetElemsMirrored.get? k = some r → e.hero_order = some i →
      r.hero_order = some (if i = 10 then 11 else i + 5) ∧
      r.ability_order = e.ability_order ∧
      r.is_ultimate = e.is_ultimate) :=
  ⟨Or.inl rfl, by decide,
    mirror_identity_offset .models (Or.inl rfl) offsetElems offsetElemsMirrored
      100 false 10 5 (by decide)⟩

/-- **C5.** For every input of exactly 68 points and any screen width, the
assembled left+right document contains exactly 12 capstone-slot regions, 36
standard-slot regions, 12 model-thumbnail regions, 10 participant-box
regions and 40 selected-slot regions, and the validator's expected-count
table uses exactly these totals. -/
theorem assembled_region_counts (points : List (Int × Int)) (sw : Int)
    (h : points.length = 68) : assembledCountsSpec points sw := by
  obtain ⟨lu0, hu, hlu_len, hlu_dims⟩ :=
    parseCornersE_ok calculate_from_bottom_left_top_right 6 points 0 (by omega)
  obtain ⟨ls0, hst, hls_len, hls_dims⟩ :=
    parseCornersE_ok calculate_from_top_left_bottom_right 18 points 12 (by omega)
  obtain ⟨lm0, hmod, hlm_len, hlm_dims⟩ :=
    parseCornersE_ok calculate_from_top_left_bottom_right 6 points 48 (by omega)
  obtain ⟨h0d, hh0⟩ :=
    parsePairE_ok calculate_from_top_left_bottom_right points 60 (by omega)
  obtain ⟨h1d, hh1⟩ :=
    parsePairE_ok calculate_from_top_left_bottom_right points 62 (by omega)
  obtain ⟨a1d, ha1⟩ :=
    parsePairE_ok calculate_from_top_left_bottom_right points 64 (by omega)
  obtain ⟨a2d, ha2⟩ :=
    parsePairE_ok calculate_from_top_left_bottom_right points 66 (by omega)
  -- left-side stamping
  obtain ⟨lu, hlu_ok, hlu_len2, _⟩ := stampOrders_ok_of_le lu0 left_hero_orders
    (by simp [left_hero_orders, hlu_len])
  have hlu_dims2 := stampOrders_dims lu0 left_hero_orders lu hlu_ok hlu_dims
  have hau : apply_ultimate_hero_orders lu0 true = .ok lu := hlu_ok
  have hastd : apply_standard_hero_orders ls0 true =
      .ok (stampStandards left_hero_orders 0 ls0) := by
    simp [apply_standard_hero_orders, hls_len]
  have hstd_len : (stampStandards left_hero_orders 0 ls0).length = 18 := by
    rw [stampStandards_length, hls_len]
  have hstd_dims := stampStandards_dims left_hero_orders ls0 0 hls_dims
  obtain ⟨lmods, hlm_ok, hlm_len2, _⟩ := stampOrders_ok_of_le lm0 left_hero_orders
    (by simp [left_hero_orders, hlm_len])
  have hlm_dims2 := stampOrders_dims lm0 left_hero_orders lmods hlm_ok hlm_dims
  -- left-side generation
  have hsel := generate_selected_eq a1d a2d h0d h1d
    { width := h0d.width, height := h0d.height }
    { width := a1d.width, height := a1d.height }
  have hlh_len : (generate_heroes h0d h1d
      { width := h0d.width, height := h0d.height }).length = 5 := by
    rw [generate_heroes_eq]; rfl
  have hsel_len : (selectedRow a1d a2d h0d.y h0d.y 0 ++
      selectedRow a1d a2d h0d.y h1d.y 1 ++
      selectedRow a1d a2d h0d.y (h1d.y + (2 - 1) * (h1d.y - h0d.y)) 2 ++
      selectedRow a1d a2d h0d.y (h1d.y + (3 - 1) * (h1d.y - h0d.y)) 3 ++
      selectedRow a1d a2d h0d.y (h1d.y + (4 - 1) * (h1d.y - h0d.y)) 4).length = 20 := by
    simp [selectedRow]
  -- mirroring
  obtain ⟨ru0, hmu, hru0_len⟩ := mirror_ok_of_dims lu sw .ultimates true 0 0
    (fun _ => hlu_dims2)
  obtain ⟨ru, hru_ok, hru_len, _⟩ := stampOrders_ok_of_le ru0 right_ultimate_orders
    (by simp [right_ultimate_orders, hru0_len, hlu_len2, hlu_len])
  have haur : apply_ultimate_hero_orders ru0 false = .ok ru := hru_ok
  obtain ⟨rs0, hms, hrs0_len⟩ := mirror_ok_of_dims
    (stampStandards left_hero_orders 0 ls0) sw .standards true 0 0
    (fun _ => hstd_dims)
  have hastdr : apply_standard_hero_orders rs0 false =
      .ok (stampStandards right_standard_orders 0 rs0) := by
    simp [apply_standard_hero_orders, hrs0_len, hstd_len]
  have hrstd_len : (stampStandards right_standard_orders 0 rs0).length = 18 := by
    rw [stampStandards_length, hrs0_len, hstd_len]
  obtain ⟨rm, hmm, hrm_len⟩ := mirror_ok_of_dims lmods sw .models true 0 0
    (fun _ => hlm_dims2)
  obtain ⟨rh, hmh, hrh_len⟩ := mirror_ok_of_dims
    (generate_heroes h0d h1d { width := h0d.width, height := h0d.height })
    sw .heroes false h0d.width h0d.height
    (fun hcon => (Bool.false_ne_true hcon).elim)
  obtain ⟨rsel, hmsel, hrsel_len⟩ := mirror_ok_of_dims
    (selectedRow a1d a2d h0d.y h0d.y 0 ++
      selectedRow a1d a2d h0d.y h1d.y 1 ++
      selectedRow a1d a2d h0d.y (h1d.y + (2 - 1) * (h1d.y - h0d.y)) 2 ++
      selectedRow a1d a2d h0d.y (h1d.y + (3 - 1) * (h1d.y - h0d.y)) 3 ++
      selectedRow a1d a2d h0d.y (h1d.y + (4 - 1) * (h1d.y - h0d.y)) 4)
    sw .selected_abilities false a1d.width a1d.height
    (fun hcon => (Bool.false_ne_true hcon).elim)
  refine ⟨{ heroes_params := { width := h0d.width, height := h0d.height },
            selected_abilities_params := { width := a1d.width, height := a1d.height },
            ultimate_slots_coords := lu ++ ru,
            standard_slots_coords := stampStandards left_hero_orders 0 ls0 ++
              stampStandards right_standard_orders 0 rs0,
            models_coords := lmods ++ rm,
            heroes_coords := generate_heroes h0d h1d
              { width := h0d.width, height := h0d.height } ++ rh,
            selected_abilities_coords :=
              (selectedRow a1d a2d h0d.y h0d.y 0 ++
                selectedRow a1d a2d h0d.y h1d.y 1 ++
                selectedRow a1d a2d h0d.y (h1d.y + (2 - 1) * (h1d.y - h0d.y)) 2 ++
                selectedRow a1d a2d h0d.y (h1d.y + (3 - 1) * (h1d.y - h0d.y)) 3 ++
                selectedRow a1d a2d h0d.y (h1d.y + (4 - 1) * (h1d.y - h0d.y)) 4) ++
              rsel },
          ?_, ?_, ?_, ?_, ?_, ?_, rfl⟩
  · simp only [calculate_coordinates_from_clicks, hu, hst, hmod, hh0, hh1,
      ha1, ha2, ok_bind, hsel, hau, hastd, hlm_ok, hmu, haur, hms, hastdr,
      hmm, hmh, hmsel]
  · simp only [List.length_append]; omega
  · simp only [List.length_append]; omega
  · simp only [List.length_append]; omega
  · simp only [List.length_append, hlh_len]; omega
  · simp only [List.length_append, hsel_len]; omega

/-- Witness for C5: the concrete 68-click input on a 5000-wide screen. -/
theorem assembled_region_counts_witness :
    reversedCornerClicks.length = 68 ∧
      assembledCountsSpec reversedCornerClicks 5000 :=
  ⟨by decide, assembled_region_counts reversedCornerClicks 5000 (by decide)⟩

/-- **C8 counterexample.** On an empty click list (fewer points than any
category requires) the pipeline fails with a bare `IndexError` — the
Python built-in raised by out-of-range list indexing, which carries neither
a category name nor a shortfall; no `InsufficientInputError` class exists
anywhere in the code (`MapperError` is the complete failure inventory). -/
theorem insufficient_input_counterexample :
    calculate_coordinates_from_clicks [] 1920 = .error MapperError.indexError :=
  by decide

/-- **C8 (amended).** If fewer than the 68 required points are supplied,
`calculate_coordinates_from_clicks` aborts with Python's built-in
`IndexError` from out-of-range list indexing — not with a custom
`InsufficientInputError`, and without identifying a category or shortfall —
and returns no output at all, so no partial group is ever produced. -/
theorem short_input_raises_index_error (points : List (Int × Int)) (sw : Int)
    (h : points.length < 68) :
    calculate_coordinates_from_clicks points sw = .error .indexError := by
  by_cases h12 : points.length < 12
  · have e := parseCornersE_err calculate_from_bottom_left_top_right 6 points 0
      (by omega) (by omega)
    simp only [calculate_coordinates_from_clicks, e, error_bind]
  · obtain ⟨lu0, hu, _, _⟩ :=
      parseCornersE_ok calculate_from_bottom_left_top_right 6 points 0 (by omega)
    by_cases h48 : points.length < 48
    · have e := parseCornersE_err calculate_from_top_left_bottom_right 18 points 12
        (by omega) (by omega)
      simp only [calculate_coordinates_from_clicks, hu, ok_bind, e, error_bind]
    · obtain ⟨ls0, hst, _, _⟩ :=
        parseCornersE_ok calculate_from_top_left_bottom_right 18 points 12 (by omega)
      by_cases h60 : points.length < 60
      · have e := parseCornersE_err calculate_from_top_left_bottom_right 6 points 48
          (by omega) (by omega)
        simp only [calculate_coordinates_from_clicks, hu, hst, ok_bind, e, error_bind]
      · obtain ⟨lm0, hmod, _, _⟩ :=
          parseCornersE_ok calculate_from_top_left_bottom_right 6 points 48 (by omega)
        by_cases h62 : points.length < 62
        · have e := parsePairE_err calculate_from_top_left_bottom_right points 60
            (by omega)
          simp only [calculate_coordinates_from_clicks, hu, hst, hmod, ok_bind,
            e, error_bind]
        · obtain ⟨h0d, hh0⟩ :=
            parsePairE_ok calculate_from_top_left_bottom_right points 60 (by omega)
          by_cases h64 : points.length < 64
          · have e := parsePairE_err calculate_from_top_left_bottom_right points 62
              (by omega)
            simp only [calculate_coordinates_from_clicks, hu, hst, hmod, hh0,
              ok_bind, e, error_bind]
          · obtain ⟨h1d, hh1⟩ :=
              parsePairE_ok calculate_from_top_left_bottom_right points 62 (by omega)
            by_cases h66 : points.length < 66
            · have e := parsePairE_err calculate_from_top_left_bottom_right points 64
                (by omega)
              simp only [calculate_coordinates_from_clicks, hu, hst, hmod, hh0,
                hh1, ok_bind, e, error_bind]
            · obtain ⟨a1d, ha1⟩ :=
                parsePairE_ok calculate_from_top_left_bottom_right points 64 (by omega)
              have e := parsePairE_err calculate_from_top_left_bottom_right points 66
                (by omega)
              simp only [calculate_coordinates_from_clicks, hu, hst, hmod, hh0,
                hh1, ha1, ok_bind, e, error_bind]

/-- Witness for C8's amended claim: 67 of the 68 clicks. -/
theorem short_input_raises_index_error_witness :
    (reversedCornerClicks.take 67).length < 68 ∧
      calculate_coordinates_from_clicks (reversedCornerClicks.take 67) 1920 =
        .error .indexError :=
  ⟨by decide,
    short_input_raises_index_error (reversedCornerClicks.take 67) 1920 (by decide)⟩

/-- **C10.** For every coordinate dictionary and screen dimensions, the
validation report has an empty warnings list (the only warning-producing
branch needs a list-valued expected count, and every expected count is an
integer), and its `passed` flag is true exactly when its errors list is
empty. -/
theorem validation_report_shape (coords : CoordsDict) (w h : Int) :
    (validate_coordinates coords w h).warnings = [] ∧
    ((validate_coordinates coords w h).passed = true ↔
      (validate_coordinates coords w h).errors = []) :=
  ⟨(validate_coordinates_inv coords w h).2, (validate_coordinates_inv coords w h).1⟩

/-- **C9.** Bounds validation records a width-overflow error for a region
exactly when `x + width` strictly exceeds the screen width (and a
height-overflow error exactly when `y + height` strictly exceeds the screen
height), with per-region dimensions in the `checkItemDims` branch and the
category's shared params in the `checkItemParams` branch; a region with
`x + width` equal to the screen width passes bounds validation with no
width error. -/
theorem bounds_check_strict (cat : Category) (w h : Int) (v : Validation)
    (i : Nat) (item : Coord) (params : Params) :
    strictBoundsSpec cat w h v i item params := by
  refine ⟨checkItemDims_bw_mem cat w h v i item,
    checkItemDims_bh_mem cat w h v i item,
    checkItemParams_bw_mem cat params w h v i item,
    checkItemParams_bh_mem cat params w h v i item, ?_⟩
  intro hb
  unfold validate_coordinates dimsPass paramsPass
  dsimp only
  simp only [List.enum, List.enumFrom, List.foldl_cons, List.foldl_nil,
    expected_counts, countStep_mem_bw, checkItemDims_bw_mem]
  simp only [List.not_mem_nil, false_or]
  omega

/-- Witness for C9: the spec evaluated at the region `exactEdgeItem`, whose
right edge lies exactly on a screen of width 10, with the boundary clause's
hypothesis discharged concretely. -/
theorem bounds_check_strict_witness :
    strictBoundsSpec .models_coords 10 100
      { passed := true, errors := [], warnings := [] }
      3 exactEdgeItem { width := 2, height := 3 } ∧
    exactEdgeItem.x + exactEdgeItem.width.getD 0 = 10 ∧
    VErr.beyondWidth Category.ultimate_slots_coords 0 exactEdgeItem.hero_order ∉
      (validate_coordinates { ultimate_slots_coords := some [exactEdgeItem] }
        10 100).errors :=
  ⟨bounds_check_strict .models_coords 10 100
      { passed := true, errors := [], warnings := [] }
      3 exactEdgeItem { width := 2, height := 3 },
   by decide,
   (bounds_check_strict .models_coords 10 100
      { passed := true, errors := [], warnings := [] }
      3 exactEdgeItem { width := 2, height := 3 }).2.2.2.2 (by decide)⟩

set_option maxRecDepth 100000 in
/-- **C6 counterexample.** Feeding the pipeline the concrete 68-click input
whose first capstone slot has its two corner clicks swapped: the corner
conversion returns width `-50` and height `-20` verbatim (no clamping or
sign-correction), the negative-width region survives into the assembled
document at index 0, and the validation report is completely clean —
`passed` is true and there is no error entry for that region, refuting the
claim that a reversed-corner rectangle must surface as a validation error. -/
theorem reversed_corners_pass_validation :
    (calculate_from_bottom_left_top_right (150, 100) (100, 120)).width = -50 ∧
    (calculate_from_bottom_left_top_right (150, 100) (100, 120)).height = -20 ∧
    (calculate_coordinates_from_clicks reversedCornerClicks 5000).map
        (fun c => (c.ultimate_slots_coords.get? 0).map (fun r => r.width)) =
      .ok (some (some (-50))) ∧
    (calculate_coordinates_from_clicks reversedCornerClicks 5000).map
        (fun c => validate_coordinates c.toDict 5000 5000) =
      .ok { passed := true, errors := [], warnings := [] } :=
  ⟨by decide, by decide, by decide, by decide⟩

/-- **C6 (amended).** The corner conversion performs no clamping or
sign-correction (reversed corners yield the negative width/height verbatim),
but validation has no negative-dimension check either: a region whose origin
is non-negative and whose `x + width` and `y + height` stay within the
screen passes the per-item boundary check completely untouched — producing
no error entry — even when its width or height is negative.  A reversed
rectangle is reported only if it happens to trip the negative-origin or
bounds checks. -/
theorem negative_dims_silently_pass (bl tr : Int × Int) (cat : Category)
    (w h : Int) (v : Validation) (i : Nat) (item : Coord)
    (h1 : 0 ≤ item.x) (h2 : 0 ≤ item.y)
    (h3 : item.x + item.width.getD 0 ≤ w)
    (h4 : item.y + item.height.getD 0 ≤ h) :
    calculate_from_bottom_left_top_right bl tr =
      { x := bl.1, y := tr.2, width := tr.1 - bl.1, height := bl.2 - tr.2 } ∧
    checkItemDims cat w h v (i, item) = v := by
  refine ⟨rfl, ?_⟩
  have c1 : ¬(item.x < 0 ∨ item.y < 0) := by omega
  have c2 : ¬(item.x + item.width.getD 0 > w) := by omega
  have c3 : ¬(item.y + item.height.getD 0 > h) := by omega
  unfold checkItemDims
  dsimp only
  rw [if_neg c1, if_neg c2, if_neg c3]

/-- Witness for C6's amended claim: the reversed-corner region itself
(width -50, height -20) passes the boundary check untouched on a
5000 x 5000 screen. -/
theorem negative_dims_silently_pass_witness :
    0 ≤ reversedRegion.x ∧ 0 ≤ reversedRegion.y ∧
    reversedRegion.x + reversedRegion.width.getD 0 ≤ 5000 ∧
    reversedRegion.y + reversedRegion.height.getD 0 ≤ 5000 ∧
    (calculate_from_bottom_left_top_right (150, 100) (100, 120) =
      { x := 150, y := 120, width := -50, height := -20 } ∧
     checkItemDims .ultimate_slots_coords 5000 5000
        { passed := true, errors := [], warnings := [] } (0, reversedRegion) =
      { passed := true, errors := [], warnings := [] }) :=
  ⟨by decide, by decide, by decide, by decide,
    negative_dims_silently_pass (150, 100) (100, 120) .ultimate_slots_coords
      5000 5000 { passed := true, errors := [], warnings := [] } 0
      reversedRegion (by decide) (by decide) (by decide) (by decide)⟩
